import Mathlib

/-
Verification of the Nexus-Learn orchestration core against its
natural-language specification (spec.md).

The repository ships the orchestration agent's tests, demo and validation
scripts under src/agents/orchestration_agent/, but the implementation module
orchestration_agent.py itself is not under src/.  Following the spec, the
components below (TaskRequest validation, PriorityQueue, CircuitBreaker,
RateLimiter, routing, dispatch gating, task state machine, result
aggregation) are modelled from the specification text; the doc comment of
every such definition records this.  Machine floats of the token bucket are
modelled as rationals, wall-clock time as rational instants passed
explicitly to each operation, and Python in-place mutation as explicit
state passing.
-/

namespace NexusOrch

/-- Modelled from the spec: the error kinds of section 7 of spec.md
(orchestration_agent.py is missing from src/).  One inductive covers
ValidationError, RoutingError, QueueFullError, CircuitOpenError,
RateLimitExceededError, DispatchTimeoutError, DownstreamError and
NotFoundError. -/
inductive OrchError where
  | validationError
  | routingError
  | queueFullError
  | circuitOpenError
  | rateLimitExceededError
  | dispatchTimeoutError
  | downstreamError
  | notFoundError
deriving DecidableEq, Repr

/-- Modelled from the spec: task lifecycle states of section 4.5
(orchestration_agent.py is missing from src/). -/
inductive TaskStatus where
  | QUEUED
  | RUNNING
  | COMPLETED
  | FAILED
  | TIMEOUT
deriving DecidableEq, Repr

/-- Modelled from the spec: a TaskRequest as in section 3 of spec.md
(orchestration_agent.py is missing from src/).  The payload and metadata
maps are opaque key-value lists; priority is an integer. -/
structure TaskRequest where
  pattern : String
  payload : List (String × String)
  priority : Int
  metadata : List (String × String)
  timeout : Option ℚ
  callback_url : Option String
deriving DecidableEq, Repr

/-- Modelled from the spec: validated construction of a TaskRequest
(orchestration_agent.py is missing from src/).  Spec section 3: pattern
must be non-empty and priority must lie in [1,5], otherwise creation fails
with a validation error; priority defaults to 1, metadata to the empty
map, timeout and callback_url to absent when omitted. -/
def TaskRequest.create (pattern : String) (payload : List (String × String))
    (priority : Option Int) (metadata : Option (List (String × String)))
    (timeout : Option ℚ) (callback_url : Option String) :
    Except OrchError TaskRequest :=
  let p := priority.getD 1
  if pattern.isEmpty then
    .error .validationError
  else if p < 1 ∨ 5 < p then
    .error .validationError
  else
    .ok ⟨pattern, payload, p, metadata.getD [], timeout, callback_url⟩

/-- Modelled from the spec: a QueueEntry as in section 3 of spec.md
(orchestration_agent.py is missing from src/).  The seq field is the
enqueue sequence number (enqueued_at order): entries enqueued earlier
carry a smaller seq. -/
structure QueueEntry where
  task_id : String
  priority : Int
  seq : Nat
  payload : List (String × String)
deriving DecidableEq, Repr

/-- Modelled from the spec: dequeue precedence of the priority queue,
section 4.2 of spec.md (orchestration_agent.py is missing from src/).
The queue is keyed by (priority, -enqueued_sequence); better a b means a
dequeues strictly before b: higher priority wins, and within equal
priority the smaller (earlier) sequence number wins. -/
def better (a b : QueueEntry) : Bool :=
  decide (b.priority < a.priority) ||
    (decide (a.priority = b.priority) && decide (a.seq < b.seq))

/-- Modelled from the spec: the PriorityQueue state of sections 3 and 4.2
(orchestration_agent.py is missing from src/).  The binary max-heap is
modelled by its abstract content: the list of live entries together with
the next enqueue sequence number and the configured bound. -/
structure PriorityQueue where
  entries : List QueueEntry
  next_seq : Nat
  max_size : Nat
deriving DecidableEq, Repr

/-- Modelled from the spec: a freshly constructed empty queue with the
given max_size (orchestration_agent.py is missing from src/). -/
def PriorityQueue.empty (max_size : Nat) : PriorityQueue :=
  ⟨[], 0, max_size⟩

/-- Modelled from the spec: enqueue of section 4.2 (orchestration_agent.py
is missing from src/): fails with QueueFullError when the current size
equals the configured max_size, otherwise records the entry with the next
sequence number. -/
def PriorityQueue.enqueue (q : PriorityQueue) (task_id : String)
    (priority : Int) (payload : List (String × String)) :
    Except OrchError PriorityQueue :=
  if q.entries.length = q.max_size then
    .error .queueFullError
  else
    .ok { q with
          entries := q.entries ++ [⟨task_id, priority, q.next_seq, payload⟩],
          next_seq := q.next_seq + 1 }

/-- Modelled from the spec: selection of the maximum entry under the heap
key (orchestration_agent.py is missing from src/).  Scans the candidates,
keeping the current best; on a tie the earlier-scanned entry is kept. -/
def pickBest (e : QueueEntry) : List QueueEntry → QueueEntry
  | [] => e
  | f :: rest => if better f e then pickBest f rest else pickBest e rest

/-- Removes the first occurrence of the given entry from a list. -/
def removeFirst (e : QueueEntry) : List QueueEntry → List QueueEntry
  | [] => []
  | f :: rest => if f = e then rest else f :: removeFirst e rest

/-- Modelled from the spec: dequeue of section 4.2 (orchestration_agent.py
is missing from src/): extracts the entry with the maximal
(priority, -enqueued_sequence) key, or none when the queue is empty
(blocking is modelled as the none case). -/
def PriorityQueue.dequeue (q : PriorityQueue) :
    Option (QueueEntry × PriorityQueue) :=
  match q.entries with
  | [] => none
  | e :: rest =>
      let best := pickBest e rest
      some (best, { q with entries := removeFirst best (e :: rest) })

/-- Removes the first entry carrying the given task id from a list. -/
def removeById (id : String) : List QueueEntry → List QueueEntry
  | [] => []
  | f :: rest => if f.task_id = id then rest else f :: removeById id rest

/-- Modelled from the spec: remove of section 4.2 (orchestration_agent.py
is missing from src/): cancels a still-queued entry, returning whether it
was found. -/
def PriorityQueue.remove (q : PriorityQueue) (id : String) :
    Bool × PriorityQueue :=
  (q.entries.any (fun e => decide (e.task_id = id)),
   { q with entries := removeById id q.entries })

/-- Modelled from the spec: get_size of section 4.2 (orchestration_agent.py
is missing from src/). -/
def PriorityQueue.get_size (q : PriorityQueue) : Nat :=
  q.entries.length

/-- Fuel-indexed repeated dequeue; the fuel bounds the number of
extractions. -/
def drainAux : Nat → PriorityQueue → List QueueEntry
  | 0, _ => []
  | fuel + 1, q =>
      match q.dequeue with
      | none => []
      | some (e, q') => e :: drainAux fuel q'

/-- Sequence of entries obtained by dequeuing until the queue is empty. -/
def PriorityQueue.drain (q : PriorityQueue) : List QueueEntry :=
  drainAux q.entries.length q

/-- Modelled from the spec: external operations a client can perform on
the queue (orchestration_agent.py is missing from src/). -/
inductive QueueOp where
  | enq (task_id : String) (priority : Int) (payload : List (String × String))
  | deq
  | rem (task_id : String)
deriving DecidableEq, Repr

/-- Applies one queue operation; a failed enqueue leaves the state
unchanged (the raised QueueFullError aborts the operation). -/
def applyOp (q : PriorityQueue) : QueueOp → PriorityQueue
  | .enq id p pl =>
      match q.enqueue id p pl with
      | .ok q' => q'
      | .error _ => q
  | .deq =>
      match q.dequeue with
      | some (_, q') => q'
      | none => q
  | .rem id => (q.remove id).2

/-- Runs a sequence of queue operations from the given state. -/
def PriorityQueue.run (q : PriorityQueue) (ops : List QueueOp) : PriorityQueue :=
  ops.foldl applyOp q

/-- Modelled from the spec: circuit breaker states of section 4.3
(orchestration_agent.py is missing from src/). -/
inductive CircuitBreakerState where
  | CLOSED
  | OPEN
  | HALF_OPEN
deriving DecidableEq, Repr

/-- Modelled from the spec: per-agent circuit breaker state, sections 3
and 4.3 (orchestration_agent.py is missing from src/).  Wall-clock
instants are rationals passed to each operation. -/
structure CircuitBreaker where
  threshold : Nat
  timeout : ℚ
  state : CircuitBreakerState
  failure_count : Nat
  opened_at : ℚ
deriving DecidableEq, Repr

/-- Modelled from the spec: a freshly constructed breaker, section 4.3:
CLOSED with failure_count 0 (orchestration_agent.py is missing from
src/). -/
def CircuitBreaker.init (threshold : Nat) (timeout : ℚ) : CircuitBreaker :=
  ⟨threshold, timeout, .CLOSED, 0, 0⟩

/-- Modelled from the spec: record_failure of section 4.3
(orchestration_agent.py is missing from src/).  CLOSED: increment
failure_count and open (recording opened_at) once it reaches threshold;
HALF_OPEN: back to OPEN with opened_at reset to now.  The spec is silent
on OPEN; the count is incremented and the state kept. -/
def CircuitBreaker.record_failure (cb : CircuitBreaker) (now : ℚ) :
    CircuitBreaker :=
  match cb.state with
  | .CLOSED =>
      let fc := cb.failure_count + 1
      if cb.threshold ≤ fc then
        { cb with state := .OPEN, failure_count := fc, opened_at := now }
      else
        { cb with failure_count := fc }
  | .OPEN => { cb with failure_count := cb.failure_count + 1 }
  | .HALF_OPEN =>
      { cb with state := .OPEN, failure_count := cb.failure_count + 1,
                opened_at := now }

/-- Modelled from the spec: record_success of section 4.3
(orchestration_agent.py is missing from src/).  CLOSED: reset
failure_count; HALF_OPEN: close and reset failure_count.  The spec is
silent on OPEN; the count is reset and the state kept. -/
def CircuitBreaker.record_success (cb : CircuitBreaker) : CircuitBreaker :=
  match cb.state with
  | .CLOSED => { cb with failure_count := 0 }
  | .OPEN => { cb with failure_count := 0 }
  | .HALF_OPEN => { cb with state := .CLOSED, failure_count := 0 }

/-- Modelled from the spec: can_execute of section 4.3
(orchestration_agent.py is missing from src/).  Returns the admission
decision together with the possibly transitioned breaker: OPEN turns into
HALF_OPEN (admitting a single trial) on the next call at or past
opened_at + timeout. -/
def CircuitBreaker.can_execute (cb : CircuitBreaker) (now : ℚ) :
    Bool × CircuitBreaker :=
  match cb.state with
  | .CLOSED => (true, cb)
  | .OPEN =>
      if cb.timeout ≤ now - cb.opened_at then
        (true, { cb with state := .HALF_OPEN })
      else
        (false, cb)
  | .HALF_OPEN => (true, cb)

/-- Modelled from the spec: get_state_value used by the metrics tests
(orchestration_agent.py is missing from src/): CLOSED 0, HALF_OPEN 1,
OPEN 2. -/
def CircuitBreaker.get_state_value (cb : CircuitBreaker) : Nat :=
  match cb.state with
  | .CLOSED => 0
  | .HALF_OPEN => 1
  | .OPEN => 2

/-- Modelled from the spec: the token bucket of sections 3 and 4.4
(orchestration_agent.py is missing from src/).  Machine floats are
modelled as rationals. -/
structure RateLimiter where
  rate : ℚ
  burst_size : ℚ
  tokens : ℚ
  last_refill_at : ℚ
deriving DecidableEq, Repr

/-- Modelled from the spec: a freshly constructed bucket, full at creation
time (orchestration_agent.py is missing from src/). -/
def RateLimiter.init (rate burst_size now : ℚ) : RateLimiter :=
  ⟨rate, burst_size, burst_size, now⟩

/-- Modelled from the spec: acquire of section 4.4 (orchestration_agent.py
is missing from src/): lazily refill to
min(burst_size, tokens + elapsed * rate), then consume one token when at
least one is available, else refuse without consuming. -/
def RateLimiter.acquire (rl : RateLimiter) (now : ℚ) : Bool × RateLimiter :=
  let elapsed := now - rl.last_refill_at
  let refilled := min rl.burst_size (rl.tokens + elapsed * rl.rate)
  if 1 ≤ refilled then
    (true, { rl with tokens := refilled - 1, last_refill_at := now })
  else
    (false, { rl with tokens := refilled, last_refill_at := now })

/-- Runs a sequence of acquire attempts at the given instants, collecting
the decisions and the final bucket state. -/
def acquireSeq (rl : RateLimiter) : List ℚ → List Bool × RateLimiter
  | [] => ([], rl)
  | t :: ts =>
      let a := rl.acquire t
      let rest := acquireSeq a.2 ts
      (a.1 :: rest.1, rest.2)

/-- Modelled from the spec: a TaskRecord, section 3 of spec.md
(orchestration_agent.py is missing from src/). -/
structure TaskRecord where
  task_id : String
  agent : String
  status : TaskStatus
  created_at : ℚ
  finished_at : Option ℚ
  result : Option String
  error : Option OrchError
  attempt_count : Nat
deriving DecidableEq, Repr

/-- Modelled from the spec: terminal statuses per the glossary and section
4.5 (orchestration_agent.py is missing from src/). -/
def TaskStatus.isTerminal : TaskStatus → Bool
  | .COMPLETED => true
  | .FAILED => true
  | .TIMEOUT => true
  | _ => false

/-- Modelled from the spec: the one-directional transition relation of
section 4.5 (orchestration_agent.py is missing from src/): QUEUED to
RUNNING, RUNNING to COMPLETED, FAILED or TIMEOUT, nothing else. -/
def canTransition : TaskStatus → TaskStatus → Bool
  | .QUEUED, .RUNNING => true
  | .RUNNING, .COMPLETED => true
  | .RUNNING, .FAILED => true
  | .RUNNING, .TIMEOUT => true
  | _, _ => false

/-- Modelled from the spec: a guarded status update on a record owned by
the TaskRegistry (orchestration_agent.py is missing from src/): only the
transitions of section 4.5 are applied, anything else leaves the record
untouched. -/
def TaskRecord.applyTransition (rec : TaskRecord) (s : TaskStatus) :
    TaskRecord :=
  if canTransition rec.status s then { rec with status := s } else rec

/-- Modelled from the spec: the TaskRegistry lookup (orchestration_agent.py
is missing from src/), an association of task ids to records. -/
def lookupTask : List (String × TaskRecord) → String → Option TaskRecord
  | [], _ => none
  | (k, r) :: rest, id => if k = id then some r else lookupTask rest id

/-- Modelled from the spec: a RoutingRule, section 3 of spec.md
(orchestration_agent.py is missing from src/). -/
structure RoutingRule where
  pattern : String
  target_agent : String
  endpoint : String
deriving DecidableEq, Repr

/-- Exact-match scan of the routing rules for a pattern. -/
def findRule : List RoutingRule → String → Option RoutingRule
  | [], _ => none
  | r :: rest, pat => if r.pattern = pat then some r else findRule rest pat

/-- Modelled from the spec: route of section 4.1 (orchestration_agent.py
is missing from src/): exact-match lookup, failing with RoutingError when
no rule matches. -/
def route (rules : List RoutingRule) (pat : String) : Except OrchError String :=
  match findRule rules pat with
  | some r => .ok r.target_agent
  | none => .error .routingError

/-- Modelled from the spec: the orchestrator state visible to submission,
sections 2 and 4 (orchestration_agent.py is missing from src/): routing
rules, the pending queue, the task registry and the per-agent breakers. -/
structure OrchState where
  rules : List RoutingRule
  queue : PriorityQueue
  registry : List (String × TaskRecord)
  breakers : List (String × CircuitBreaker)
deriving DecidableEq, Repr

/-- Modelled from the spec: route_request of the orchestrator, section 4.1
(orchestration_agent.py is missing from src/): routing consults only the
routing table; breaker and limiter gates live in dispatch (section 4.6). -/
def OrchState.route_request (st : OrchState) (req : TaskRequest) :
    Except OrchError String :=
  route st.rules req.pattern

/-- Modelled from the spec: synchronous submission, sections 4.1, 4.2 and
7 (orchestration_agent.py is missing from src/): route first (fail-fast,
RoutingError surfaces before any queue or registry interaction), then
enqueue, then create the QUEUED registry record. -/
def OrchState.submit (st : OrchState) (req : TaskRequest) (task_id : String)
    (now : ℚ) : Except OrchError OrchState :=
  match OrchState.route_request st req with
  | .error e => .error e
  | .ok agent =>
      match st.queue.enqueue task_id req.priority req.payload with
      | .error e => .error e
      | .ok q' =>
          .ok { st with
                queue := q',
                registry := st.registry ++
                  [(task_id, ⟨task_id, agent, .QUEUED, now, none, none, none, 0⟩)] }

/-- Runs a submission, pairing the surfaced error (if any) with the state
the orchestrator keeps: a failed submission leaves the state as it was. -/
def OrchState.submitRun (st : OrchState) (req : TaskRequest) (task_id : String)
    (now : ℚ) : Option OrchError × OrchState :=
  match OrchState.submit st req task_id now with
  | .error e => (some e, st)
  | .ok st' => (none, st')

/-- Modelled from the spec: the outcome of one dispatch attempt, section
4.6 (orchestration_agent.py is missing from src/). -/
structure DispatchResult where
  breaker : CircuitBreaker
  limiter : RateLimiter
  record : TaskRecord
deriving DecidableEq, Repr

/-- Marks a record FAILED with the given error at the given instant. -/
def TaskRecord.markFailed (rec : TaskRecord) (e : OrchError) (now : ℚ) :
    TaskRecord :=
  { rec with status := .FAILED, error := some e, finished_at := some now }

/-- Modelled from the spec: one dispatch attempt, section 4.6 steps (1) to
(3) (orchestration_agent.py is missing from src/): breaker gate first
(CircuitOpenError, task FAILED), then limiter gate (RateLimitExceededError,
task FAILED, no breaker penalty), then the network call, whose downstream
outcome is the explicit argument; success records breaker success and
COMPLETED, failure records breaker failure and bumps attempt_count (the
retry loop of step (4) is abstracted to a single attempt). -/
def dispatchOnce (cb : CircuitBreaker) (rl : RateLimiter) (rec : TaskRecord)
    (now : ℚ) (downstream : Except OrchError String) : DispatchResult :=
  let gate := cb.can_execute now
  if gate.1 = false then
    ⟨gate.2, rl, rec.markFailed .circuitOpenError now⟩
  else
    let acq := rl.acquire now
    if acq.1 = false then
      ⟨gate.2, acq.2, rec.markFailed .rateLimitExceededError now⟩
    else
      match downstream with
      | .ok body =>
          ⟨gate.2.record_success, acq.2,
           { rec with status := .COMPLETED, result := some body,
                      finished_at := some now }⟩
      | .error e =>
          ⟨gate.2.record_failure now, acq.2,
           { rec with attempt_count := rec.attempt_count + 1,
                      status := .FAILED, error := some e,
                      finished_at := some now }⟩

/-- Modelled from the spec: the shape returned by aggregate, section 4.7
(orchestration_agent.py is missing from src/): the results map carries the
stored result of each successfully completed id, the errors map the stored
error of each failed id. -/
structure AggregateResult where
  total_tasks : Nat
  results : List (String × Option String)
  errors : List (String × Option OrchError)
deriving DecidableEq, Repr

/-- Modelled from the spec: aggregate_results of section 4.7
(orchestration_agent.py is missing from src/): each requested id is looked
up in the registry; ids whose record is COMPLETED go to results, ids whose
record reached a failing terminal state (FAILED or TIMEOUT) go to errors,
pending or unknown ids to neither map. -/
def aggregate_results (reg : List (String × TaskRecord)) (ids : List String) :
    AggregateResult :=
  { total_tasks := ids.length
    , results := ids.filterMap (fun id =>
        match lookupTask reg id with
        | some r => if r.status = .COMPLETED then some (id, r.result) else none
        | none => none)
    , errors := ids.filterMap (fun id =>
        match lookupTask reg id with
        | some r =>
            if r.status = .FAILED ∨ r.status = .TIMEOUT then
              some (id, r.error)
            else none
        | none => none) }

/-- Concrete three-task registry used to check aggregation: two tasks
completed successfully, one failed. -/
def exampleReg : List (String × TaskRecord) :=
  [("t1", ⟨"t1", "content_ingestion_agent", .COMPLETED, 0, some 1,
      some "pages", none, 1⟩),
   ("t2", ⟨"t2", "content_ingestion_agent", .COMPLETED, 0, some 1,
      some "done", none, 1⟩),
   ("t3", ⟨"t3", "personalization_agent", .FAILED, 0, some 1, none,
      some .downstreamError, 2⟩)]

theorem better_true_iff (a b : QueueEntry) :
    better a b = true ↔
      b.priority < a.priority ∨ (a.priority = b.priority ∧ a.seq < b.seq) := by
  simp [better]

theorem better_false_iff (a b : QueueEntry) :
    better a b = false ↔
      a.priority ≤ b.priority ∧ (a.priority = b.priority → b.seq ≤ a.seq) := by
  rw [← Bool.not_eq_true, better_true_iff]
  constructor
  · intro h
    constructor
    · omega
    · intro hp
      by_contra hs
      exact h (Or.inr ⟨hp, by omega⟩)
  · rintro ⟨h1, h2⟩ (h | ⟨hp, hs⟩)
    · omega
    · have := h2 hp
      omega

theorem better_trans {a b c : QueueEntry} (hab : better a b = true)
    (hbc : better b c = true) : better a c = true := by
  rw [better_true_iff] at hab hbc ⊢
  rcases hab with h | ⟨hp, hs⟩ <;> rcases hbc with h' | ⟨hp', hs'⟩
  · exact Or.inl (by omega)
  · exact Or.inl (by omega)
  · exact Or.inl (by omega)
  · exact Or.inr ⟨by omega, by omega⟩

theorem better_shift {a b c : QueueEntry} (hac : better a c = true)
    (hab : better a b = false) : better b c = true := by
  rw [better_true_iff] at hac ⊢
  rw [better_false_iff] at hab
  rcases hab with ⟨h1, h2⟩
  rcases hac with h | ⟨hp, hs⟩
  · rcases lt_or_eq_of_le h1 with h' | h'
    · exact Or.inl (by omega)
    · exact Or.inl (by omega)
  · rcases lt_or_eq_of_le h1 with h' | h'
    · exact Or.inl (by omega)
    · exact Or.inr ⟨by omega, by have := h2 h'; omega⟩

theorem pickBest_mem (e : QueueEntry) (l : List QueueEntry) :
    pickBest e l = e ∨ pickBest e l ∈ l := by
  induction l generalizing e with
  | nil => exact Or.inl rfl
  | cons f rest ih =>
      simp only [pickBest]
      by_cases hb : better f e = true
      · simp only [hb, if_pos]
        rcases ih f with h | h
        · exact Or.inr (by simp [h])
        · exact Or.inr (by simp [h])
      · simp only [hb, if_neg, Bool.not_eq_true]
        rcases ih e with h | h
        · exact Or.inl h
        · exact Or.inr (by simp [h])

theorem pickBest_not_better (e : QueueEntry) (l : List QueueEntry) :
    ∀ x, x = e ∨ x ∈ l → better x (pickBest e l) = false := by
  induction l generalizing e with
  | nil =>
      rintro x (hxe | hx)
      · rw [hxe]
        simp only [pickBest]
        rw [better_false_iff]
        omega
      · simp at hx
  | cons f rest ih =>
      intro x hx
      simp only [pickBest]
      by_cases hb : better f e = true
      · rw [if_pos hb]
        rcases hx with hxe | hx
        · cases hxe2 : better x (pickBest f rest) with
          | false => rfl
          | true =>
              have hf := ih f f (Or.inl rfl)
              have hfx : better f x = true := by rw [hxe]; exact hb
              have hcon : better f (pickBest f rest) = true :=
                better_trans hfx hxe2
              rw [hf] at hcon
              exact absurd hcon (by simp)
        · rcases List.mem_cons.mp hx with hxf | hx2
          · exact ih f x (Or.inl hxf)
          · exact ih f x (Or.inr hx2)
      · have hb' : better f e = false := by
          cases h : better f e
          · rfl
          · exact absurd h hb
        rw [if_neg hb]
        rcases hx with hxe | hx
        · exact ih e x (Or.inl hxe)
        · rcases List.mem_cons.mp hx with hxf | hx2
          · cases hxe2 : better x (pickBest e rest) with
            | false => rfl
            | true =>
                have he := ih e e (Or.inl rfl)
                rw [hxf] at hxe2
                have hcon : better e (pickBest e rest) = true :=
                  better_shift hxe2 hb'
                rw [he] at hcon
                exact absurd hcon (by simp)
          · exact ih e x (Or.inr hx2)

theorem removeFirst_subset (e : QueueEntry) (l : List QueueEntry) :
    ∀ x ∈ removeFirst e l, x ∈ l := by
  induction l with
  | nil => intro x hx; simp [removeFirst] at hx
  | cons f rest ih =>
      intro x hx
      simp only [removeFirst] at hx
      by_cases hf : f = e
      · simp only [hf, if_pos] at hx
        exact List.mem_cons_of_mem _ hx
      · simp only [hf, if_neg, not_false_iff] at hx
        rcases List.mem_cons.mp hx with rfl | hx
        · exact List.mem_cons_self _ _
        · exact List.mem_cons_of_mem _ (ih x hx)

theorem removeFirst_length_le (e : QueueEntry) (l : List QueueEntry) :
    (removeFirst e l).length ≤ l.length := by
  induction l with
  | nil => simp [removeFirst]
  | cons f rest ih =>
      simp only [removeFirst]
      by_cases hf : f = e
      · simp only [hf, if_pos, List.length_cons]
        omega
      · simp only [hf, if_neg, not_false_iff, List.length_cons]
        omega

theorem removeById_length_le (id : String) (l : List QueueEntry) :
    (removeById id l).length ≤ l.length := by
  induction l with
  | nil => simp [removeById]
  | cons f rest ih =>
      simp only [removeById]
      by_cases hf : f.task_id = id
      · simp only [hf, if_pos, List.length_cons]
        omega
      · simp only [hf, if_neg, not_false_iff, List.length_cons]
        omega

theorem mem_drainAux (n : Nat) :
    ∀ (q : PriorityQueue), ∀ x ∈ drainAux n q, x ∈ q.entries := by
  induction n with
  | zero => intro q x hx; simp [drainAux] at hx
  | succ n ih =>
      rintro ⟨entries, ns, ms⟩ x hx
      cases entries with
      | nil => simp [drainAux, PriorityQueue.dequeue] at hx
      | cons e rest =>
          simp only [drainAux, PriorityQueue.dequeue, List.mem_cons] at hx
          show x ∈ e :: rest
          rcases hx with hxb | hx
          · rw [hxb]
            rcases pickBest_mem e rest with h | h
            · rw [h]; exact List.mem_cons_self _ _
            · exact List.mem_cons_of_mem _ h
          · have h2 := ih _ x hx
            exact removeFirst_subset _ _ x h2

theorem pairwise_drainAux (n : Nat) :
    ∀ (q : PriorityQueue),
      List.Pairwise (fun a b => better b a = false) (drainAux n q) := by
  induction n with
  | zero => intro q; simp [drainAux]
  | succ n ih =>
      rintro ⟨entries, ns, ms⟩
      cases entries with
      | nil => simp [drainAux, PriorityQueue.dequeue]
      | cons e rest =>
          simp only [drainAux, PriorityQueue.dequeue]
          refine List.Pairwise.cons ?_ (ih _)
          intro x hx
          have hx' := mem_drainAux n _ x hx
          have hx'' := removeFirst_subset _ _ x hx'
          rcases List.mem_cons.mp hx'' with hxe | h
          · exact pickBest_not_better e rest x (Or.inl hxe)
          · exact pickBest_not_better e rest x (Or.inr h)

/-- C1: for every sequence of enqueue operations on the priority queue,
the sequence of dequeued entries is non-increasing in priority, and among
equal priorities the entry with the smaller enqueue sequence number (the
one enqueued earlier) is dequeued first; concretely, enqueuing (A,3),
(B,5), (C,1) and dequeuing three times yields B, A, C. -/
theorem dequeue_order_priority_then_fifo (q : PriorityQueue) :
    List.Pairwise
      (fun a b => b.priority ≤ a.priority ∧
        (a.priority = b.priority → a.seq ≤ b.seq))
      q.drain
    ∧ (PriorityQueue.drain (PriorityQueue.run (PriorityQueue.empty 100)
        [QueueOp.enq "A" 3 [], QueueOp.enq "B" 5 [], QueueOp.enq "C" 1 []])).map
          QueueEntry.task_id = ["B", "A", "C"] := by
  constructor
  · refine List.Pairwise.imp ?_ (pairwise_drainAux q.entries.length q)
    intro a b hba
    rw [better_false_iff] at hba
    exact ⟨hba.1, fun hp => hba.2 hp.symm⟩
  · decide

/-- C2: with threshold 3, the first two record_failure calls leave the
breaker CLOSED, the third moves it to OPEN (recording opened_at); while
less than timeout has elapsed since opened_at, can_execute returns false;
once at least timeout has elapsed, the next can_execute call returns true
and transitions to HALF_OPEN, and a subsequent record_success returns the
breaker to CLOSED with failure_count 0. -/
theorem circuit_breaker_cycle (T t1 t2 t3 n1 n2 : ℚ)
    (h1 : n1 - t3 < T) (h2 : T ≤ n2 - t3) :
    ((CircuitBreaker.init 3 T).record_failure t1).state = .CLOSED
    ∧ (((CircuitBreaker.init 3 T).record_failure t1).record_failure t2).state
        = .CLOSED
    ∧ ((((CircuitBreaker.init 3 T).record_failure t1).record_failure
          t2).record_failure t3)
        = ⟨3, T, .OPEN, 3, t3⟩
    ∧ ((⟨3, T, .OPEN, 3, t3⟩ : CircuitBreaker).can_execute n1).1 = false
    ∧ ((⟨3, T, .OPEN, 3, t3⟩ : CircuitBreaker).can_execute n2).1 = true
    ∧ ((⟨3, T, .OPEN, 3, t3⟩ : CircuitBreaker).can_execute n2).2.state
        = .HALF_OPEN
    ∧ (((⟨3, T, .OPEN, 3, t3⟩ : CircuitBreaker).can_execute
          n2).2.record_success).state = .CLOSED
    ∧ (((⟨3, T, .OPEN, 3, t3⟩ : CircuitBreaker).can_execute
          n2).2.record_success).failure_count = 0 := by
  have hno : ¬ T ≤ n1 - t3 := not_le.mpr h1
  refine ⟨?_, ?_, ?_, ?_, ?_, ?_, ?_, ?_⟩ <;>
    simp [CircuitBreaker.init, CircuitBreaker.record_failure,
          CircuitBreaker.can_execute, CircuitBreaker.record_success, hno, h2]

/-- Witness for C2 at threshold 3, timeout 5, failures at instants 0, 0, 1,
a refused probe at instant 3 and an admitted probe at instant 6. -/
theorem circuit_breaker_cycle_witness :
    ((⟨3, 5, .OPEN, 3, 1⟩ : CircuitBreaker).can_execute 3).1 = false
    ∧ ((⟨3, 5, .OPEN, 3, 1⟩ : CircuitBreaker).can_execute 6).1 = true
    ∧ (((⟨3, 5, .OPEN, 3, 1⟩ : CircuitBreaker).can_execute
          6).2.record_success).failure_count = 0 := by
  have h := circuit_breaker_cycle 5 0 0 1 3 6 (by norm_num) (by norm_num)
  exact ⟨h.2.2.2.1, h.2.2.2.2.1, h.2.2.2.2.2.2.2⟩

/-- C3: on every acquire attempt the decision is taken on the lazily
replenished amount min(burst_size, tokens + elapsed * rate); with
burst_size 5 and a full bucket, five consecutive acquire calls at the same
instant all succeed and a sixth fails, and once enough time has passed for
at least one token at the configured rate, acquire succeeds again. -/
theorem rate_limiter_burst_and_refill (r t0 t1 : ℚ)
    (h : 1 ≤ (t1 - t0) * r) :
    (∀ (rl : RateLimiter) (now : ℚ), (rl.acquire now).1 =
        decide (1 ≤ min rl.burst_size
          (rl.tokens + (now - rl.last_refill_at) * rl.rate)))
    ∧ (acquireSeq (RateLimiter.init r 5 t0) [t0, t0, t0, t0, t0, t0]).1
        = [true, true, true, true, true, false]
    ∧ ((acquireSeq (RateLimiter.init r 5 t0)
          [t0, t0, t0, t0, t0, t0]).2.acquire t1).1 = true := by
  have s1 : RateLimiter.acquire ⟨r, 5, 5, t0⟩ t0 = (true, ⟨r, 5, 4, t0⟩) := by
    norm_num [RateLimiter.acquire, min_def]
  have s2 : RateLimiter.acquire ⟨r, 5, 4, t0⟩ t0 = (true, ⟨r, 5, 3, t0⟩) := by
    norm_num [RateLimiter.acquire, min_def]
  have s3 : RateLimiter.acquire ⟨r, 5, 3, t0⟩ t0 = (true, ⟨r, 5, 2, t0⟩) := by
    norm_num [RateLimiter.acquire, min_def]
  have s4 : RateLimiter.acquire ⟨r, 5, 2, t0⟩ t0 = (true, ⟨r, 5, 1, t0⟩) := by
    norm_num [RateLimiter.acquire, min_def]
  have s5 : RateLimiter.acquire ⟨r, 5, 1, t0⟩ t0 = (true, ⟨r, 5, 0, t0⟩) := by
    norm_num [RateLimiter.acquire, min_def]
  have s6 : RateLimiter.acquire ⟨r, 5, 0, t0⟩ t0 = (false, ⟨r, 5, 0, t0⟩) := by
    norm_num [RateLimiter.acquire, min_def]
  have hseq : acquireSeq (RateLimiter.init r 5 t0) [t0, t0, t0, t0, t0, t0]
      = ([true, true, true, true, true, false], ⟨r, 5, 0, t0⟩) := by
    simp [acquireSeq, RateLimiter.init, s1, s2, s3, s4, s5, s6]
  refine ⟨?_, ?_, ?_⟩
  · intro rl now
    simp only [RateLimiter.acquire]
    split
    · rename_i hc
      simp [hc]
    · rename_i hc
      simp [hc]
  · rw [hseq]
  · rw [hseq]
    have hc : (1 : ℚ) ≤ min 5 (0 + (t1 - t0) * r) :=
      le_min_iff.mpr ⟨by norm_num, by rw [zero_add]; exact h⟩
    simp only [RateLimiter.acquire]
    rw [if_pos hc]

/-- Witness for C3 at rate 1, bucket created at instant 0, refill probe at
instant 2. -/
theorem rate_limiter_burst_and_refill_witness :
    (acquireSeq (RateLimiter.init 1 5 0) [0, 0, 0, 0, 0, 0]).1
        = [true, true, true, true, true, false]
    ∧ ((acquireSeq (RateLimiter.init 1 5 0) [0, 0, 0, 0, 0, 0]).2.acquire
          2).1 = true := by
  have h := rate_limiter_burst_and_refill 1 0 2 (by norm_num)
  exact ⟨h.2.1, h.2.2⟩

theorem dequeue_shrinks (q : PriorityQueue) (e : QueueEntry)
    (q' : PriorityQueue) (h : q.dequeue = some (e, q')) :
    q'.entries.length ≤ q.entries.length ∧ q'.max_size = q.max_size := by
  obtain ⟨entries, ns, ms⟩ := q
  cases entries with
  | nil => simp [PriorityQueue.dequeue] at h
  | cons f rest =>
      simp only [PriorityQueue.dequeue] at h
      injection h with h2
      injection h2 with he hq'
      subst he hq'
      refine ⟨?_, rfl⟩
      exact removeFirst_length_le (pickBest f rest) (f :: rest)

theorem applyOp_max_size (q : PriorityQueue) (op : QueueOp) :
    (applyOp q op).max_size = q.max_size := by
  cases op with
  | enq id p pl =>
      cases hq : q.enqueue id p pl with
      | error e => simp only [applyOp, hq]
      | ok q' =>
          simp only [applyOp, hq]
          simp only [PriorityQueue.enqueue] at hq
          by_cases hfull : q.entries.length = q.max_size
          · rw [if_pos hfull] at hq
            cases hq
          · rw [if_neg hfull] at hq
            injection hq with hq2
            subst hq2
            rfl
  | deq =>
      cases hq : q.dequeue with
      | none => simp only [applyOp, hq]
      | some pr2 =>
          obtain ⟨e2, q'⟩ := pr2
          simp only [applyOp, hq]
          exact (dequeue_shrinks q e2 q' hq).2
  | rem id => rfl

theorem applyOp_length_le (q : PriorityQueue) (op : QueueOp)
    (h : q.entries.length ≤ q.max_size) :
    (applyOp q op).entries.length ≤ q.max_size := by
  cases op with
  | enq id p pl =>
      cases hq : q.enqueue id p pl with
      | error e =>
          simp only [applyOp, hq]
          exact h
      | ok q' =>
          simp only [applyOp, hq]
          simp only [PriorityQueue.enqueue] at hq
          by_cases hfull : q.entries.length = q.max_size
          · rw [if_pos hfull] at hq
            cases hq
          · rw [if_neg hfull] at hq
            injection hq with hq2
            subst hq2
            simp only [List.length_append, List.length_cons, List.length_nil]
            omega
  | deq =>
      cases hq : q.dequeue with
      | none =>
          simp only [applyOp, hq]
          exact h
      | some pr2 =>
          obtain ⟨e2, q'⟩ := pr2
          simp only [applyOp, hq]
          have h2 := dequeue_shrinks q e2 q' hq
          omega
  | rem id =>
      simp only [applyOp, PriorityQueue.remove]
      have h1 := removeById_length_le id q.entries
      omega

theorem run_length_le (ops : List QueueOp) :
    ∀ (q : PriorityQueue), q.entries.length ≤ q.max_size →
      (q.run ops).entries.length ≤ (q.run ops).max_size := by
  induction ops with
  | nil => intro q h; exact h
  | cons op ops ih =>
      intro q h
      have hstep : (applyOp q op).entries.length ≤ (applyOp q op).max_size := by
        rw [applyOp_max_size]
        exact applyOp_length_le q op h
      exact ih (applyOp q op) hstep

/-- C4: enqueue fails with QueueFullError exactly when the current size
equals the configured max_size, and from any state within its bound the
queue size never exceeds max_size after any sequence of enqueue, dequeue
and remove operations. -/
theorem queue_full_exactly_and_bounded (q : PriorityQueue)
    (ops : List QueueOp) (id : String) (p : Int)
    (pl : List (String × String)) (h : q.entries.length ≤ q.max_size) :
    (q.enqueue id p pl = .error .queueFullError ↔
      q.entries.length = q.max_size)
    ∧ (q.run ops).get_size ≤ (q.run ops).max_size := by
  constructor
  · simp only [PriorityQueue.enqueue]
    split
    · rename_i hfull
      simp [hfull]
    · rename_i hfull
      simp [hfull]
  · exact run_length_le ops q h

/-- Witness for C4 on a queue of capacity 1 filled by one enqueue, with a
second enqueue refused and the size staying within the bound. -/
theorem queue_full_exactly_and_bounded_witness :
    (PriorityQueue.run (PriorityQueue.empty 1)
        [QueueOp.enq "a" 1 [], QueueOp.enq "b" 2 []]).get_size
      ≤ (PriorityQueue.run (PriorityQueue.empty 1)
        [QueueOp.enq "a" 1 [], QueueOp.enq "b" 2 []]).max_size :=
  (queue_full_exactly_and_bounded (PriorityQueue.empty 1)
    [QueueOp.enq "a" 1 [], QueueOp.enq "b" 2 []] "c" 3 [] (by decide)).2

/-- C5: constructing a TaskRequest fails with a validation error exactly
when the pattern is empty or the effective priority lies outside [1,5];
when all optional fields are omitted and the pattern is non-empty,
construction succeeds with priority 1, empty metadata, and absent timeout
and callback_url. -/
theorem taskrequest_validation (pat : String) (pl : List (String × String))
    (pr : Option Int) (md : Option (List (String × String)))
    (tmo : Option ℚ) (cbu : Option String) :
    (TaskRequest.create pat pl pr md tmo cbu = .error .validationError ↔
      pat.isEmpty = true ∨ pr.getD 1 < 1 ∨ 5 < pr.getD 1)
    ∧ (pat.isEmpty = false →
        TaskRequest.create pat pl none none none none
          = .ok ⟨pat, pl, 1, [], none, none⟩) := by
  constructor
  · simp only [TaskRequest.create]
    split_ifs with hp1 hp2
    · simp [hp1]
    · constructor
      · intro _
        exact Or.inr hp2
      · intro _
        rfl
    · simp [hp1, hp2]
  · intro hne
    simp [TaskRequest.create, hne]

/-- Witness for C5: an out-of-range priority is refused and an
all-defaults construction succeeds with the documented defaults. -/
theorem taskrequest_validation_witness :
    (TaskRequest.create "upload_pdf" [] (some 10) none none none
        = .error .validationError ↔
      ("upload_pdf".isEmpty = true ∨ (some (10 : Int)).getD 1 < 1
        ∨ 5 < (some (10 : Int)).getD 1))
    ∧ TaskRequest.create "upload_pdf" [] none none none none
        = .ok ⟨"upload_pdf", [], 1, [], none, none⟩ :=
  ⟨(taskrequest_validation "upload_pdf" [] (some 10) none none none).1,
   (taskrequest_validation "upload_pdf" [] none none none none).2 (by decide)⟩

theorem findRule_eq_none (rules : List RoutingRule) (pat : String)
    (h : ∀ r ∈ rules, r.pattern ≠ pat) : findRule rules pat = none := by
  induction rules with
  | nil => rfl
  | cons r rest ih =>
      simp only [findRule]
      rw [if_neg (h r (List.mem_cons_self r rest))]
      exact ih (fun r2 hr2 => h r2 (List.mem_cons_of_mem _ hr2))

/-- C6: when no routing rule matches the request's pattern, routing fails
with RoutingError, and the whole submission surfaces that error while
leaving the orchestrator state (queue and registry included) exactly as it
was: the failure happens before any queue or registry interaction. -/
theorem routing_failfast (st : OrchState) (req : TaskRequest) (id : String)
    (now : ℚ) (h : ∀ r ∈ st.rules, r.pattern ≠ req.pattern) :
    OrchState.route_request st req = .error .routingError
    ∧ OrchState.submitRun st req id now = (some .routingError, st) := by
  have hr : OrchState.route_request st req = .error .routingError := by
    simp [OrchState.route_request, route,
          findRule_eq_none st.rules req.pattern h]
  refine ⟨hr, ?_⟩
  simp [OrchState.submitRun, OrchState.submit, hr]

/-- Witness for C6: a submission using an unregistered pattern fails with
RoutingError and returns the state unchanged. -/
theorem routing_failfast_witness :
    OrchState.submitRun
        ⟨[⟨"upload_pdf", "content_ingestion_agent",
            "http://localhost:8001/ingest"⟩],
         PriorityQueue.empty 100, [], []⟩
        ⟨"invalid_pattern", [], 1, [], none, none⟩ "task-1" 0
      = (some .routingError,
         ⟨[⟨"upload_pdf", "content_ingestion_agent",
             "http://localhost:8001/ingest"⟩],
          PriorityQueue.empty 100, [], []⟩) :=
  (routing_failfast
    ⟨[⟨"upload_pdf", "content_ingestion_agent",
        "http://localhost:8001/ingest"⟩],
     PriorityQueue.empty 100, [], []⟩
    ⟨"invalid_pattern", [], 1, [], none, none⟩ "task-1" 0 (by decide)).2

theorem canTransition_terminal_false (s : TaskStatus)
    (h : s.isTerminal = true) (t : TaskStatus) : canTransition s t = false := by
  cases s with
  | QUEUED => simp [TaskStatus.isTerminal] at h
  | RUNNING => simp [TaskStatus.isTerminal] at h
  | COMPLETED => cases t <;> rfl
  | FAILED => cases t <;> rfl
  | TIMEOUT => cases t <;> rfl

theorem foldl_applyTransition_terminal (updates : List TaskStatus) :
    ∀ (rec : TaskRecord), rec.status.isTerminal = true →
      updates.foldl TaskRecord.applyTransition rec = rec := by
  induction updates with
  | nil => intro rec h; rfl
  | cons u us ih =>
      intro rec h
      have h1 : rec.applyTransition u = rec := by
        simp [TaskRecord.applyTransition,
              canTransition_terminal_false rec.status h u]
      simp only [List.foldl_cons, h1]
      exact ih rec h

/-- C7: from a terminal status (COMPLETED, FAILED or TIMEOUT) no
transition is permitted, no status at all may transition back to QUEUED,
and a terminal registry record is left untouched by any sequence of
attempted status updates, so repeated polling returns the same terminal
record. -/
theorem terminal_frozen (rec : TaskRecord) (updates : List TaskStatus)
    (h : rec.status.isTerminal = true) :
    (∀ t, canTransition rec.status t = false)
    ∧ (∀ s, canTransition s .QUEUED = false)
    ∧ updates.foldl TaskRecord.applyTransition rec = rec :=
  ⟨fun t => canTransition_terminal_false rec.status h t,
   fun s => by cases s <;> rfl,
   foldl_applyTransition_terminal updates rec h⟩

/-- Witness for C7: a COMPLETED record survives attempted updates to
RUNNING and FAILED unchanged. -/
theorem terminal_frozen_witness :
    List.foldl TaskRecord.applyTransition
        ⟨"t1", "content_ingestion_agent", .COMPLETED, 0, some 1, some "ok",
          none, 1⟩
        [.RUNNING, .FAILED]
      = ⟨"t1", "content_ingestion_agent", .COMPLETED, 0, some 1, some "ok",
          none, 1⟩ :=
  (terminal_frozen
    ⟨"t1", "content_ingestion_agent", .COMPLETED, 0, some 1, some "ok",
      none, 1⟩
    [.RUNNING, .FAILED] (by decide)).2.2

theorem mem_aggregate_results (reg : List (String × TaskRecord))
    (ids : List String) (id : String) :
    (∃ v, (id, v) ∈ (aggregate_results reg ids).results) ↔
      (id ∈ ids ∧ ∃ r, lookupTask reg id = some r ∧ r.status = .COMPLETED) := by
  constructor
  · rintro ⟨v, hv⟩
    simp only [aggregate_results, List.mem_filterMap] at hv
    obtain ⟨a, ha, hfa⟩ := hv
    cases hl : lookupTask reg a with
    | none =>
        simp only [hl] at hfa
        exact Option.noConfusion hfa
    | some r =>
        simp only [hl] at hfa
        by_cases hs : r.status = .COMPLETED
        · rw [if_pos hs] at hfa
          injection hfa with hfa2
          injection hfa2 with hid hv2
          subst hid
          exact ⟨ha, r, hl, hs⟩
        · rw [if_neg hs] at hfa
          cases hfa
  · rintro ⟨hid, r, hl, hs⟩
    refine ⟨r.result, ?_⟩
    simp only [aggregate_results, List.mem_filterMap]
    refine ⟨id, hid, ?_⟩
    simp only [hl]
    rw [if_pos hs]

theorem mem_aggregate_errors (reg : List (String × TaskRecord))
    (ids : List String) (id : String) :
    (∃ v, (id, v) ∈ (aggregate_results reg ids).errors) ↔
      (id ∈ ids ∧ ∃ r, lookupTask reg id = some r ∧
        (r.status = .FAILED ∨ r.status = .TIMEOUT)) := by
  constructor
  · rintro ⟨v, hv⟩
    simp only [aggregate_results, List.mem_filterMap] at hv
    obtain ⟨a, ha, hfa⟩ := hv
    cases hl : lookupTask reg a with
    | none =>
        simp only [hl] at hfa
        exact Option.noConfusion hfa
    | some r =>
        simp only [hl] at hfa
        by_cases hs : r.status = .FAILED ∨ r.status = .TIMEOUT
        · rw [if_pos hs] at hfa
          injection hfa with hfa2
          injection hfa2 with hid hv2
          subst hid
          exact ⟨ha, r, hl, hs⟩
        · rw [if_neg hs] at hfa
          cases hfa
  · rintro ⟨hid, r, hl, hs⟩
    refine ⟨r.error, ?_⟩
    simp only [aggregate_results, List.mem_filterMap]
    refine ⟨id, hid, ?_⟩
    simp only [hl]
    rw [if_pos hs]

/-- C8: aggregation reports total_tasks equal to the number of requested
ids, its results map holds exactly the requested ids whose record is
COMPLETED, and its errors map exactly the requested ids whose record
reached a failing terminal state; on the concrete three-task registry with
two completions and one failure it reports total 3, two results and one
error. -/
theorem aggregate_counts_and_membership (reg : List (String × TaskRecord))
    (ids : List String) :
    (aggregate_results reg ids).total_tasks = ids.length
    ∧ (∀ id, (∃ v, (id, v) ∈ (aggregate_results reg ids).results) ↔
        (id ∈ ids ∧ ∃ r, lookupTask reg id = some r ∧
          r.status = .COMPLETED))
    ∧ (∀ id, (∃ v, (id, v) ∈ (aggregate_results reg ids).errors) ↔
        (id ∈ ids ∧ ∃ r, lookupTask reg id = some r ∧
          (r.status = .FAILED ∨ r.status = .TIMEOUT)))
    ∧ (aggregate_results exampleReg ["t1", "t2", "t3"]).total_tasks = 3
    ∧ (aggregate_results exampleReg ["t1", "t2", "t3"]).results.length = 2
    ∧ (aggregate_results exampleReg ["t1", "t2", "t3"]).errors.length = 1 :=
  ⟨rfl,
   fun id => mem_aggregate_results reg ids id,
   fun id => mem_aggregate_errors reg ids id,
   by decide, by decide, by decide⟩

theorem can_execute_keeps_failure_count (cb : CircuitBreaker) (now : ℚ) :
    (cb.can_execute now).2.failure_count = cb.failure_count := by
  cases hs : cb.state with
  | CLOSED => simp [CircuitBreaker.can_execute, hs]
  | OPEN =>
      simp only [CircuitBreaker.can_execute, hs]
      split <;> rfl
  | HALF_OPEN => simp [CircuitBreaker.can_execute, hs]

theorem can_execute_keeps_closed_half_open (cb : CircuitBreaker) (now : ℚ)
    (h : cb.state = .CLOSED ∨ cb.state = .HALF_OPEN) :
    (cb.can_execute now).2 = cb := by
  cases hs : cb.state with
  | CLOSED => simp [CircuitBreaker.can_execute, hs]
  | OPEN =>
      rw [hs] at h
      rcases h with h | h <;> cases h
  | HALF_OPEN => simp [CircuitBreaker.can_execute, hs]

/-- C9 counterexample: a throttled dispatch attempt (rate limiter refuses,
task marked FAILED with RateLimitExceededError) against a breaker that was
OPEN with its timeout already elapsed leaves the breaker in HALF_OPEN, not
in its original OPEN state, so the breaker state is not always unchanged. -/
theorem throttled_dispatch_can_move_breaker :
    ((dispatchOnce ⟨3, 5, .OPEN, 3, 0⟩ ⟨1, 5, 0, 10⟩
        ⟨"t9", "agent_a", .RUNNING, 0, none, none, none, 0⟩ 10
        (.ok "body")).record.status = .FAILED
     ∧ (dispatchOnce ⟨3, 5, .OPEN, 3, 0⟩ ⟨1, 5, 0, 10⟩
        ⟨"t9", "agent_a", .RUNNING, 0, none, none, none, 0⟩ 10
        (.ok "body")).record.error = some .rateLimitExceededError)
    ∧ ¬ (dispatchOnce ⟨3, 5, .OPEN, 3, 0⟩ ⟨1, 5, 0, 10⟩
        ⟨"t9", "agent_a", .RUNNING, 0, none, none, none, 0⟩ 10
        (.ok "body")).breaker.state = .OPEN := by
  have hgate : CircuitBreaker.can_execute ⟨3, 5, .OPEN, 3, 0⟩ 10
      = (true, ⟨3, 5, .HALF_OPEN, 3, 0⟩) := by
    norm_num [CircuitBreaker.can_execute]
  have hacq : RateLimiter.acquire ⟨1, 5, 0, 10⟩ 10 = (false, ⟨1, 5, 0, 10⟩) := by
    norm_num [RateLimiter.acquire, min_def]
  simp [dispatchOnce, hgate, hacq, TaskRecord.markFailed]

/-- C9 amended: a dispatch attempt refused by the rate limiter fails with
RateLimitExceededError and marks the task FAILED; no record_failure is
charged to the breaker: its failure_count is unchanged and it is exactly
the breaker returned by the preceding can_execute gate, hence fully
unchanged whenever it was CLOSED or HALF_OPEN (the only possible change is
the OPEN to HALF_OPEN probe transition done by can_execute itself). -/
theorem throttled_no_breaker_penalty (cb : CircuitBreaker) (rl : RateLimiter)
    (rec : TaskRecord) (now : ℚ) (downstream : Except OrchError String)
    (hex : (cb.can_execute now).1 = true)
    (hacq : (rl.acquire now).1 = false) :
    (dispatchOnce cb rl rec now downstream).record.status = .FAILED
    ∧ (dispatchOnce cb rl rec now downstream).record.error
        = some .rateLimitExceededError
    ∧ (dispatchOnce cb rl rec now downstream).breaker.failure_count
        = cb.failure_count
    ∧ (dispatchOnce cb rl rec now downstream).breaker
        = (cb.can_execute now).2
    ∧ (cb.state = .CLOSED ∨ cb.state = .HALF_OPEN →
        (dispatchOnce cb rl rec now downstream).breaker = cb) := by
  have hd : dispatchOnce cb rl rec now downstream
      = ⟨(cb.can_execute now).2, (rl.acquire now).2,
         rec.markFailed .rateLimitExceededError now⟩ := by
    simp [dispatchOnce, hex, hacq]
  rw [hd]
  refine ⟨rfl, rfl, can_execute_keeps_failure_count cb now, rfl, ?_⟩
  intro h
  exact can_execute_keeps_closed_half_open cb now h

/-- Witness for C9 amended: a CLOSED breaker with one recorded failure is
bit-for-bit unchanged by a throttled dispatch that marks the task FAILED. -/
theorem throttled_no_breaker_penalty_witness :
    (dispatchOnce ⟨3, 5, .CLOSED, 1, 0⟩ ⟨1, 5, 0, 10⟩
        ⟨"t9", "agent_a", .RUNNING, 0, none, none, none, 0⟩ 10
        (.ok "body")).record.status = .FAILED
    ∧ (dispatchOnce ⟨3, 5, .CLOSED, 1, 0⟩ ⟨1, 5, 0, 10⟩
        ⟨"t9", "agent_a", .RUNNING, 0, none, none, none, 0⟩ 10
        (.ok "body")).breaker = ⟨3, 5, .CLOSED, 1, 0⟩ := by
  have h := throttled_no_breaker_penalty ⟨3, 5, .CLOSED, 1, 0⟩ ⟨1, 5, 0, 10⟩
    ⟨"t9", "agent_a", .RUNNING, 0, none, none, none, 0⟩ 10 (.ok "body")
    rfl (by norm_num [RateLimiter.acquire, min_def])
  exact ⟨h.1, h.2.2.2.2 (Or.inl rfl)⟩

/-- C10 counterexample: with a routing rule for the pattern present and
the routed-to agent's breaker OPEN (can_execute false), route_request does
not raise: it returns the target agent. -/
theorem open_breaker_does_not_block_routing :
    ((⟨3, 60, .OPEN, 3, 0⟩ : CircuitBreaker).can_execute 1).1 = false
    ∧ OrchState.route_request
        ⟨[⟨"upload_pdf", "content_ingestion_agent",
            "http://localhost:8001/ingest"⟩],
         PriorityQueue.empty 100, [],
         [("content_ingestion_agent", ⟨3, 60, .OPEN, 3, 0⟩)]⟩
        ⟨"upload_pdf", [("file", "test.pdf")], 1, [], none, none⟩
      = .ok "content_ingestion_agent" := by
  constructor
  · norm_num [CircuitBreaker.can_execute]
  · simp [OrchState.route_request, route, findRule]

/-- C10 amended: routing is independent of breaker state (route_request
reads only the routing table), and the open-breaker rejection happens at
dispatch time instead: when can_execute is false the dispatch attempt
fails with CircuitOpenError, marks the task FAILED, and touches neither
the rate limiter nor the network. -/
theorem breaker_open_rejected_at_dispatch (st : OrchState)
    (req : TaskRequest) (brs : List (String × CircuitBreaker))
    (cb : CircuitBreaker) (rl : RateLimiter) (rec : TaskRecord) (now : ℚ)
    (downstream : Except OrchError String)
    (hcb : (cb.can_execute now).1 = false) :
    OrchState.route_request { st with breakers := brs } req
        = OrchState.route_request st req
    ∧ (dispatchOnce cb rl rec now downstream).record.status = .FAILED
    ∧ (dispatchOnce cb rl rec now downstream).record.error
        = some .circuitOpenError
    ∧ (dispatchOnce cb rl rec now downstream).limiter = rl := by
  have hd : dispatchOnce cb rl rec now downstream
      = ⟨(cb.can_execute now).2, rl,
         rec.markFailed .circuitOpenError now⟩ := by
    simp [dispatchOnce, hcb]
  rw [hd]
  exact ⟨rfl, rfl, rfl, rfl⟩

/-- Witness for C10 amended: an OPEN breaker inside its timeout window
makes the dispatch attempt fail with CircuitOpenError while the limiter is
untouched. -/
theorem breaker_open_rejected_at_dispatch_witness :
    (dispatchOnce ⟨3, 60, .OPEN, 3, 0⟩ ⟨1, 5, 5, 0⟩
        ⟨"t10", "agent_b", .RUNNING, 0, none, none, none, 0⟩ 1
        (.ok "body")).record.error = some .circuitOpenError
    ∧ (dispatchOnce ⟨3, 60, .OPEN, 3, 0⟩ ⟨1, 5, 5, 0⟩
        ⟨"t10", "agent_b", .RUNNING, 0, none, none, none, 0⟩ 1
        (.ok "body")).limiter = ⟨1, 5, 5, 0⟩ := by
  have h := breaker_open_rejected_at_dispatch
    ⟨[], PriorityQueue.empty 1, [], []⟩
    ⟨"p", [], 1, [], none, none⟩ [] ⟨3, 60, .OPEN, 3, 0⟩ ⟨1, 5, 5, 0⟩
    ⟨"t10", "agent_b", .RUNNING, 0, none, none, none, 0⟩ 1 (.ok "body")
    (by norm_num [CircuitBreaker.can_execute])
  exact ⟨h.2.2.1, h.2.2.2⟩

end NexusOrch
